import Mathlib

/-!
Verification of the PDF overlay-edit reconciliation model of the
report-editor system.  The definitions below are a shallow embedding of the
`PDFEditor` component: the edit store (`TextEdit` / `ImageEdit` lists), the
extraction merge, the mutation operations `updateEdit` / `deleteEdit`, the
coordinate transforms, the export serializer `downloadEditedPDF`, and the
zoom controls.  Coordinates are modelled as rationals; persistence calls are
recorded as a list of `DbOp` values emitted by each operation (the success
path of each asynchronous call); toast notifications shown to the user are
returned as strings.
-/

namespace ReportEditor

/-- A text entry of the edit store (`interface TextEdit`).  `page_number` is
an integer page index (1-based); `isOriginal` marks entries derived from the
source PDF's own text layer. -/
structure TextEdit where
  id : String
  page_number : Int
  content : String
  position_x : ℚ
  position_y : ℚ
  font_size : ℚ
  color : String
  isEditing : Bool := false
  isOriginal : Bool := false
deriving DecidableEq, Repr

/-- An image entry of the edit store (`interface ImageEdit`). -/
structure ImageEdit where
  id : String
  page_number : Int
  image_url : String
  position_x : ℚ
  position_y : ℚ
  width : ℚ
  height : ℚ
  is_deleted : Bool
deriving DecidableEq, Repr

/-- The payload of a `supabase.from("pdf_edits").insert(...)` call issued for
a text edit (fields of the inserted row). -/
structure InsertRow where
  id : String
  report_id : String
  page_number : Int
  edit_type : String
  content : String
  position_x : ℚ
  position_y : ℚ
  font_size : ℚ
  color : String
deriving DecidableEq, Repr

/-- A call issued to the persistence layer by a text-edit operation. -/
inductive DbOp where
  | insert (row : InsertRow)
  | update (id : String) (content : String)
  | delete (id : String)
deriving DecidableEq, Repr

/-- `updateEdit(editId, content)` (lines 283-329): look the target up in the
in-memory set; if absent, return without doing anything.  If the target is an
`Original` entry this is a promotion: insert a new durable row under the
fresh id `freshId` (`crypto.randomUUID()` in the source) carrying the new
content and the original's other fields, and replace the in-memory entry by
the promoted one (`isOriginal: false`, `id: newEdit.id`).  Otherwise issue a
durable content update keyed by the existing id and update the entry in
place.  The returned list records the persistence calls issued (success
path; on a persistence error the source skips the state update). -/
def updateEdit (reportId freshId editId content : String)
    (textEdits : List TextEdit) : List TextEdit × List DbOp :=
  match textEdits.find? (fun e => e.id == editId) with
  | none => (textEdits, [])
  | some edit =>
    if edit.isOriginal then
      let newEdit : InsertRow :=
        { id := freshId
          report_id := reportId
          page_number := edit.page_number
          edit_type := "text"
          content := content
          position_x := edit.position_x
          position_y := edit.position_y
          font_size := edit.font_size
          color := edit.color }
      ( textEdits.map (fun e =>
          if e.id == editId then
            { e with content := content, isOriginal := false, id := freshId }
          else e),
        [DbOp.insert newEdit] )
    else
      ( textEdits.map (fun e =>
          if e.id == editId then { e with content := content } else e),
        [DbOp.update editId content] )

/-- `deleteEdit(editId)` (lines 331-350): look the target up; if absent,
return without doing anything.  Issue a durable delete only when the target
is not an `Original` entry; in both cases remove the entry from the
in-memory set and toast "Original text hidden" (original) or "Edit removed"
(user-authored).  The third component is the toast description shown. -/
def deleteEdit (editId : String) (textEdits : List TextEdit) :
    List TextEdit × List DbOp × Option String :=
  match textEdits.find? (fun e => e.id == editId) with
  | none => (textEdits, [], none)
  | some edit =>
    ( textEdits.filter (fun e => !(e.id == editId)),
      if edit.isOriginal then [] else [DbOp.delete editId],
      some (if edit.isOriginal then "Original text hidden" else "Edit removed") )

/-- A raw positioned text item of `page.getTextContent().items`: the string,
the six entries of its transform matrix, and its advance width and height
(0 models a missing/falsy field, as in the JavaScript `||` fallbacks). -/
structure TextItem where
  str : String
  t0 : ℚ
  t1 : ℚ
  t2 : ℚ
  t3 : ℚ
  t4 : ℚ
  t5 : ℚ
  width : ℚ
  height : ℚ
deriving DecidableEq, Repr

/-- A mask rectangle covering an original glyph on the rendered bitmap. -/
structure MaskRect where
  x : ℚ
  y : ℚ
  w : ℚ
  h : ℚ
deriving DecidableEq, Repr

/-- Leading and trailing whitespace removal on a character list. -/
def trimChars (s : List Char) : List Char :=
  ((s.dropWhile Char.isWhitespace).reverse.dropWhile Char.isWhitespace).reverse

/-- JavaScript's `String.prototype.trim()`: strip whitespace from both ends
of the string. -/
def trimString (s : String) : String := ⟨trimChars s.data⟩

/-- Per-item body of the extraction loop (lines 109-134): skip items whose
trimmed string is empty; take the canvas position from the transform
(`x = transform[4]`, `y = viewport.height - transform[5]`), the font size
from the absolute horizontal scale component with the
`Math.max(item.height || 0, 10)` fallback when it is zero, and build the
original text entry (with its deterministic id) plus its mask rectangle. -/
def extractItem (pageNum : Int) (viewportHeight : ℚ) (item : TextItem) :
    Option (TextEdit × MaskRect) :=
  let str := trimString item.str
  if str.isEmpty then none
  else
    let x := item.t4
    let yPdf := item.t5
    let y := viewportHeight - yPdf
    let a := |item.t0|
    let fontSize := if a == 0 then max item.height 10 else a
    let width := if item.width == 0 then (str.length : ℚ) * fontSize * (6/10)
                 else item.width
    let height := fontSize * (12/10)
    some
      ( { id := "original-" ++ toString pageNum ++ "-" ++ toString x ++ "-"
              ++ toString y
          page_number := pageNum
          content := str
          position_x := x
          position_y := y
          font_size := fontSize
          color := "#000000"
          isOriginal := true },
        { x := x, y := y - height + fontSize * (2/10), w := width, h := height } )

/-- The merge step of `extractTextFromPage` (lines 139-147): keep the user
edits, and add the freshly derived original texts only if the previous set
has no original entry for this page; otherwise return the previous set
unchanged. -/
def mergeTextEdits (pageNum : Int) (originalTexts : List TextEdit)
    (prevEdits : List TextEdit) : List TextEdit :=
  let userEdits := prevEdits.filter (fun edit => !edit.isOriginal)
  let hasCurrentOriginals :=
    prevEdits.any (fun e => e.isOriginal && e.page_number == pageNum)
  if !hasCurrentOriginals then userEdits ++ originalTexts
  else prevEdits

/-- `extractTextFromPage` (lines 100-151) on a page of PDF-space height
`pageHeight` rendered at `scale` (so `viewport.height = pageHeight * scale`):
derive the original text entries and mask rectangles from the page's items,
merge the texts into the edit store, and return the new store together with
the page's mask list. -/
def extractTextFromPage (pageNum : Int) (pageHeight scale : ℚ)
    (items : List TextItem) (prevEdits : List TextEdit) :
    List TextEdit × List MaskRect :=
  let extracted := items.filterMap (extractItem pageNum (pageHeight * scale))
  let originalTexts := extracted.map Prod.fst
  let masks := extracted.map Prod.snd
  (mergeTextEdits pageNum originalTexts prevEdits, masks)

/-- The extraction-time PDF-to-canvas transform (lines 114-116): the x
coordinate is taken unchanged from `transform[4]`, and the y coordinate is
flipped against the scaled viewport height,
`y = viewport.height - yPdf` with `viewport.height = pageHeight * scale`. -/
def toCanvas (x y pageHeight scale : ℚ) : ℚ × ℚ :=
  (x, pageHeight * scale - y)

/-- The export-time canvas-to-PDF transform (lines 563-567): the x coordinate
is used unchanged and the y coordinate is
`adjustedY = height - position_y - font_size`, with `height` the unscaled
PDF page height (`page.getSize()`); `fontSize` is the entry's font size. -/
def toPdf (x y pageHeight fontSize : ℚ) : ℚ × ℚ :=
  (x, pageHeight - y - fontSize)

/-- An RGB color with components in [0, 1], as produced by `rgb(...)`. -/
structure Rgb where
  r : ℚ
  g : ℚ
  b : ℚ
deriving DecidableEq, Repr

/-- The value of one hex digit (the `[a-f\d]` character class with the `i`
flag), or `none` for any other character. -/
def hexDigitVal (c : Char) : Option Nat :=
  if c.isDigit then some (c.toNat - Char.toNat '0')
  else if 'a' ≤ c && c ≤ 'f' then some (c.toNat - Char.toNat 'a' + 10)
  else if 'A' ≤ c && c ≤ 'F' then some (c.toNat - Char.toNat 'A' + 10)
  else none

/-- `hexToRgb` (lines 553-560): match an optional `#` followed by exactly six
hex digits, scale each channel by 1/255; any non-matching string yields
black. -/
def hexToRgb (hex : String) : Rgb :=
  let chars :=
    match hex.toList with
    | '#' :: rest => rest
    | other => other
  match chars.mapM hexDigitVal with
  | some [d1, d2, d3, d4, d5, d6] =>
      { r := ((d1 * 16 + d2 : ℕ) : ℚ) / 255
        g := ((d3 * 16 + d4 : ℕ) : ℚ) / 255
        b := ((d5 * 16 + d6 : ℕ) : ℚ) / 255 }
  | _ => { r := 0, g := 0, b := 0 }

/-- A page of the output document: its unscaled PDF-space height
(`page.getSize().height`). -/
structure PdfPage where
  height : ℚ
deriving DecidableEq, Repr

/-- `pages[pageNumber - 1]` with JavaScript semantics: an index outside the
array (including a negative one) yields no page. -/
def pageAt (pages : List PdfPage) (pageNumber : Int) : Option PdfPage :=
  let idx := pageNumber - 1
  if 0 ≤ idx then pages[idx.toNat]? else none

/-- The image format chosen by the export serializer. -/
inductive EmbeddedImage where
  | png
  | jpg
deriving DecidableEq, Repr

/-- PNG detection (line 585): the url contains `.png` or starts with
`data:image/png`; otherwise the bytes are embedded as JPEG. -/
def detectPng (url : String) : Bool :=
  (url.splitOn ".png").length > 1 || url.startsWith "data:image/png"

/-- A drawing command issued onto the output document. -/
inductive DrawOp where
  | text (pageIdx : Int) (content : String) (x y size : ℚ) (color : Rgb)
  | image (pageIdx : Int) (kind : EmbeddedImage) (x y w h : ℚ)
deriving DecidableEq, Repr

/-- The per-image body of the export loop (lines 581-601): fetching and
decoding the image bytes is wrapped in its own try/catch, so when
`fetchImage` fails the error is only logged and the image is skipped;
otherwise the image is drawn at the inverse-transformed position in the
detected format. -/
def embedImageOp (fetchImage : String → Bool) (pageHeight : ℚ)
    (img : ImageEdit) : Option DrawOp :=
  if fetchImage img.image_url then
    let kind := if detectPng img.image_url then EmbeddedImage.png
                else EmbeddedImage.jpg
    let adjustedY := pageHeight - img.position_y - img.height
    some (DrawOp.image (img.page_number - 1) kind img.position_x adjustedY
            img.width img.height)
  else none

/-- The text pass of `downloadEditedPDF` (lines 545-571): skip original
entries, skip entries whose page does not exist, and draw every other entry
at the inverse-transformed position with its parsed color. -/
def drawTextOps (pages : List PdfPage) (textEdits : List TextEdit) :
    List DrawOp :=
  textEdits.filterMap (fun edit =>
    if edit.isOriginal then none
    else
      match pageAt pages edit.page_number with
      | none => none
      | some page =>
        let color := hexToRgb edit.color
        let adjustedY := page.height - edit.position_y - edit.font_size
        some (DrawOp.text (edit.page_number - 1) edit.content edit.position_x
                adjustedY edit.font_size color))

/-- The image pass of `downloadEditedPDF` (lines 573-602): skip soft-deleted
entries, skip entries whose page does not exist, and embed the rest through
the fallible per-image body. -/
def drawImageOps (fetchImage : String → Bool) (pages : List PdfPage)
    (imageEdits : List ImageEdit) : List DrawOp :=
  imageEdits.filterMap (fun img =>
    if img.is_deleted then none
    else
      match pageAt pages img.page_number with
      | none => none
      | some page => embedImageOp fetchImage page.height img)

/-- `downloadEditedPDF` (lines 534-625): when loading the source document
fails the outer catch aborts the export with no output (`none`); otherwise
the draw commands of the text pass followed by the image pass make up the
produced document, which is offered for download. -/
def downloadEditedPDF (loaded : Option (List PdfPage))
    (fetchImage : String → Bool) (textEdits : List TextEdit)
    (imageEdits : List ImageEdit) : Option (List DrawOp) :=
  match loaded with
  | none => none
  | some pages =>
      some (drawTextOps pages textEdits ++ drawImageOps fetchImage pages imageEdits)

/-- `zoomIn` (line 641): `setScale(Math.min(scale + 0.25, 3))`. -/
def zoomIn (scale : ℚ) : ℚ := min (scale + 1/4) 3

/-- `zoomOut` (line 642): `setScale(Math.max(scale - 0.25, 0.5))`. -/
def zoomOut (scale : ℚ) : ℚ := max (scale - 1/4) (1/2)

/-- A user zoom action. -/
inductive ZoomAction where
  | zoomInStep
  | zoomOutStep
deriving DecidableEq, Repr

/-- Apply one zoom action to the current scale. -/
def applyZoom (scale : ℚ) : ZoomAction → ℚ
  | ZoomAction.zoomInStep => zoomIn scale
  | ZoomAction.zoomOutStep => zoomOut scale

/-- Run a sequence of zoom actions from a starting scale. -/
def runZooms (start : ℚ) (acts : List ZoomAction) : ℚ :=
  acts.foldl applyZoom start

/-- The initial render scale (line 49): `useState(1.5)`. -/
def initialScale : ℚ := 3/2

/-! Concrete sample data used to instantiate the theorems below. -/

/-- An extracted original text entry, as produced for the item of
`sampleItem` (the `"Total: $42"` scenario of the specification). -/
def sampleOrig : TextEdit :=
  { id := "original-1-50-100"
    page_number := 1
    content := "Total: $42"
    position_x := 50
    position_y := 100
    font_size := 12
    color := "#000000"
    isOriginal := true }

/-- A user-authored text entry. -/
def sampleUserText : TextEdit :=
  { id := "user-1"
    page_number := 1
    content := "Note"
    position_x := 10
    position_y := 20
    font_size := 16
    color := "#000000"
    isOriginal := false }

/-- An original entry belonging to page 2. -/
def origPage2 : TextEdit :=
  { id := "original-2-30-40"
    page_number := 2
    content := "Other"
    position_x := 30
    position_y := 40
    font_size := 12
    color := "#000000"
    isOriginal := true }

/-- A raw text item at PDF-space transform `[12,0,0,12,50,700]`. -/
def sampleItem : TextItem :=
  { str := "Total: $42", t0 := 12, t1 := 0, t2 := 0, t3 := 12, t4 := 50,
    t5 := 700, width := 60, height := 12 }

/-- A user-authored text entry whose page number exceeds the document. -/
def outOfRangeText : TextEdit :=
  { id := "user-2"
    page_number := 5
    content := "Dangling"
    position_x := 5
    position_y := 6
    font_size := 14
    color := "#ff0000"
    isOriginal := false }

/-- A one-page output document of height 800. -/
def samplePages : List PdfPage := [{ height := 800 }]

/-- A live (non-deleted) image entry on page 1. -/
def sampleImage : ImageEdit :=
  { id := "img-1"
    page_number := 1
    image_url := "https://example.com/a.jpg"
    position_x := 10
    position_y := 20
    width := 200
    height := 200
    is_deleted := false }

/-! Helper lemmas. -/

/-- `find?` only depends on the values of the predicate on the list's
members. -/
theorem find?_congr_mem {α : Type} (p q : α → Bool) :
    ∀ (l : List α), (∀ x ∈ l, p x = q x) → l.find? p = l.find? q := by
  intro l
  induction l with
  | nil => intro _; rfl
  | cons a t ih =>
    intro h
    have ha := h a (List.mem_cons_self a t)
    have ht : ∀ x ∈ t, p x = q x := fun x hx => h x (List.mem_cons_of_mem a hx)
    by_cases hq : q a = true
    · rw [List.find?_cons_of_pos _ (ha ▸ hq), List.find?_cons_of_pos _ hq]
    · have hp : ¬ p a = true := fun hc => hq (ha ▸ hc)
      rw [List.find?_cons_of_neg _ hp, List.find?_cons_of_neg _ hq, ih ht]

/-- Looking up the freshly promoted id in the store after a promotion step
returns the promoted entry. -/
theorem find?_map_promote (editId freshId content : String)
    (s : List TextEdit) (edit : TextEdit)
    (hfind : s.find? (fun e => e.id == editId) = some edit)
    (hfresh : ∀ e ∈ s, e.id ≠ freshId) :
    (s.map (fun e => if e.id == editId then
        { e with content := content, isOriginal := false, id := freshId }
      else e)).find? (fun e => e.id == freshId)
      = some { edit with
               id := freshId
               content := content
               isOriginal := false } := by
  have heid : edit.id = editId := by simpa using List.find?_some hfind
  rw [List.find?_map]
  have hcong : ∀ x ∈ s,
      ((fun e : TextEdit => e.id == freshId) ∘ (fun e =>
          if e.id == editId then
            { e with content := content, isOriginal := false, id := freshId }
          else e)) x
        = (fun e : TextEdit => e.id == editId) x := by
    intro x hx
    by_cases hxid : x.id = editId
    · simp [hxid]
    · simp [hxid, hfresh x hx]
  rw [find?_congr_mem _ _ s hcong, hfind]
  simp [heid]

/-- Every fragment produced by the extraction loop body is marked original
and carries the extracted page's number. -/
theorem extractItem_fields (pageNum : Int) (vh : ℚ) (item : TextItem)
    (p : TextEdit × MaskRect) (h : extractItem pageNum vh item = some p) :
    p.1.isOriginal = true ∧ p.1.page_number = pageNum := by
  simp only [extractItem] at h
  split at h
  · exact absurd h (by simp)
  · injection h with h'
    subst h'
    exact ⟨rfl, rfl⟩

/-- Every fragment of an extraction pass is original and on the extracted
page. -/
theorem extracted_fragment_fields (pageNum : Int) (vh : ℚ)
    (items : List TextItem) :
    ∀ te ∈ (items.filterMap (extractItem pageNum vh)).map Prod.fst,
      te.isOriginal = true ∧ te.page_number = pageNum := by
  intro te hte
  rw [List.mem_map] at hte
  obtain ⟨p, hp, rfl⟩ := hte
  rw [List.mem_filterMap] at hp
  obtain ⟨item, _, hitem⟩ := hp
  exact extractItem_fields pageNum vh item p hitem

/-- Merging the same fragment list twice is the same as merging it once. -/
theorem mergeTextEdits_idem (pageNum : Int) (frags prev : List TextEdit)
    (hfr : ∀ f ∈ frags, f.isOriginal = true ∧ f.page_number = pageNum) :
    mergeTextEdits pageNum frags (mergeTextEdits pageNum frags prev)
      = mergeTextEdits pageNum frags prev := by
  by_cases hA :
      prev.any (fun e => e.isOriginal && e.page_number == pageNum) = true
  · have h1 : mergeTextEdits pageNum frags prev = prev := by
      unfold mergeTextEdits
      simp [hA]
    rw [h1, h1]
  · have hA' :
        prev.any (fun e => e.isOriginal && e.page_number == pageNum) = false :=
      Bool.eq_false_iff.mpr hA
    have h1 : mergeTextEdits pageNum frags prev
        = prev.filter (fun e => !e.isOriginal) ++ frags := by
      unfold mergeTextEdits
      simp [hA']
    rw [h1]
    have hU : ∀ e ∈ prev.filter (fun e => !e.isOriginal),
        e.isOriginal = false := by
      intro e he
      simpa using (List.mem_filter.mp he).2
    unfold mergeTextEdits
    cases frags with
    | nil =>
      simp only [List.append_nil, List.filter_filter]
      have hcong : ∀ x ∈ prev,
          (!x.isOriginal && !x.isOriginal) = (!x.isOriginal) :=
        fun x _ => Bool.and_self _
      rw [List.filter_congr hcong]
      exact ite_self _
    | cons f fs =>
      have hf := hfr f (List.mem_cons_self f fs)
      have hAny : ((prev.filter (fun e => !e.isOriginal)) ++ (f :: fs)).any
          (fun e => e.isOriginal && e.page_number == pageNum) = true := by
        rw [List.any_eq_true]
        exact ⟨f, by simp, by simp [hf.1, hf.2]⟩
      simp [hAny]

/-- Claim C5: extraction is idempotent.  Running `extractTextFromPage` twice
on the same page at the same scale with no intervening user edits yields the
same merged edit set (and the same mask list) as after the first run — no
original fragment is duplicated. -/
theorem extractTextFromPage_idempotent (pageNum : Int) (pageHeight scale : ℚ)
    (items : List TextItem) (prev : List TextEdit) :
    extractTextFromPage pageNum pageHeight scale items
        (extractTextFromPage pageNum pageHeight scale items prev).1
      = extractTextFromPage pageNum pageHeight scale items prev := by
  simp only [extractTextFromPage]
  rw [mergeTextEdits_idem pageNum
    ((items.filterMap (extractItem pageNum (pageHeight * scale))).map Prod.fst)
    prev (extracted_fragment_fields pageNum (pageHeight * scale) items)]

/-- Claim C3 counterexample: extraction does not leave `Original` entries of
other pages unaffected.  With the merged set holding one `Original` entry on
page 2 and no `Original` entry on page 1, extracting page 1 drops the page-2
entry from the merged set. -/
theorem extract_not_replacing_counterexample :
    origPage2.isOriginal = true ∧
    origPage2.page_number ≠ (1 : Int) ∧
    origPage2 ∈ ([origPage2] : List TextEdit) ∧
    origPage2 ∉ (extractTextFromPage 1 800 1 [sampleItem] [origPage2]).1 := by
  decide

/-- Claim C3 (amended): extraction never touches `UserAuthored` entries, but
it does not replace per page: when the merged set already holds an
`Original` entry for page p the whole set is returned unchanged (the fresh
fragments are discarded), and only when it holds none are the fresh
fragments adopted — in which case the `Original` entries of the result are
exactly that pass's fragments, so `Original` entries of all other pages are
dropped, while the `UserAuthored` entries are preserved exactly. -/
theorem extract_merge_behavior (pageNum : Int) (pageHeight scale : ℚ)
    (items : List TextItem) (prev : List TextEdit) :
    (∀ e ∈ prev, e.isOriginal = false →
        e ∈ (extractTextFromPage pageNum pageHeight scale items prev).1) ∧
    (prev.any (fun e => e.isOriginal && e.page_number == pageNum) = true →
        (extractTextFromPage pageNum pageHeight scale items prev).1 = prev) ∧
    (prev.any (fun e => e.isOriginal && e.page_number == pageNum) = false →
        ((extractTextFromPage pageNum pageHeight scale items prev).1.filter
            (fun e => e.isOriginal)
          = (items.filterMap (extractItem pageNum (pageHeight * scale))).map
              Prod.fst ∧
         (extractTextFromPage pageNum pageHeight scale items prev).1.filter
            (fun e => !e.isOriginal)
          = prev.filter (fun e => !e.isOriginal))) := by
  have hfr := extracted_fragment_fields pageNum (pageHeight * scale) items
  simp only [extractTextFromPage, mergeTextEdits]
  refine ⟨?_, ?_, ?_⟩
  · intro e he hne
    by_cases hA :
        prev.any (fun x => x.isOriginal && x.page_number == pageNum) = true
    · simp only [hA, Bool.not_true, if_false]
      exact he
    · have hA' :
          prev.any (fun x => x.isOriginal && x.page_number == pageNum)
            = false := Bool.eq_false_iff.mpr hA
      simp only [hA', Bool.not_false, if_true]
      exact List.mem_append_left _ (List.mem_filter.mpr ⟨he, by simp [hne]⟩)
  · intro hA
    simp [hA]
  · intro hA
    simp only [hA, Bool.not_false, if_true, List.filter_append]
    constructor
    · have h1 : (prev.filter (fun e => !e.isOriginal)).filter
          (fun e => e.isOriginal) = [] := by
        rw [List.filter_eq_nil_iff]
        intro a ha
        simp only [List.mem_filter] at ha
        simpa using ha.2
      have h2 : ((items.filterMap
            (extractItem pageNum (pageHeight * scale))).map Prod.fst).filter
          (fun e => e.isOriginal)
          = (items.filterMap
              (extractItem pageNum (pageHeight * scale))).map Prod.fst := by
        rw [List.filter_eq_self]
        intro a ha
        simp [(hfr a ha).1]
      rw [h1, h2, List.nil_append]
    · have h1 : (prev.filter (fun e => !e.isOriginal)).filter
          (fun e => !e.isOriginal) = prev.filter (fun e => !e.isOriginal) := by
        rw [List.filter_eq_self]
        intro a ha
        exact (List.mem_filter.mp ha).2
      have h2 : ((items.filterMap
            (extractItem pageNum (pageHeight * scale))).map Prod.fst).filter
          (fun e => !e.isOriginal) = [] := by
        rw [List.filter_eq_nil_iff]
        intro a ha
        simp [(hfr a ha).1]
      rw [h1, h2, List.append_nil]

/-- Witness for `extract_merge_behavior`: a concrete pass over page 1 whose
previous state has no page-1 originals, showing the adopted fragments and
preserved user edits. -/
theorem extract_merge_behavior_witness :
    (([origPage2] : List TextEdit).any
        (fun e => e.isOriginal && e.page_number == (1 : Int))) = false ∧
    ((extractTextFromPage 1 800 1 [sampleItem] [origPage2]).1.filter
        (fun e => e.isOriginal)
      = ([sampleItem].filterMap (extractItem 1 (800 * 1))).map Prod.fst ∧
     (extractTextFromPage 1 800 1 [sampleItem] [origPage2]).1.filter
        (fun e => !e.isOriginal)
      = ([origPage2] : List TextEdit).filter (fun e => !e.isOriginal)) :=
  ⟨by decide,
   (extract_merge_behavior 1 800 1 [sampleItem] [origPage2]).2.2 (by decide)⟩

/-! Claim theorems. -/

/-- Claim C6: the export serializer draws exactly the non-`Original` text
entries and the non-deleted image entries whose pages exist: an entry is
skipped precisely when it is `Original` (text), soft-deleted (image), or its
page number refers to a page outside the document — and the out-of-range
case is skipped silently, the export still succeeding.  (Image fetches are
assumed to succeed here; their failure handling is treated separately.) -/
theorem export_draws_exactly (pages : List PdfPage) (textEdits : List TextEdit)
    (imageEdits : List ImageEdit) (fetchImage : String → Bool)
    (hfetch : ∀ img ∈ imageEdits, img.is_deleted = false →
        (pageAt pages img.page_number).isSome = true →
        fetchImage img.image_url = true) :
    (downloadEditedPDF (some pages) fetchImage textEdits imageEdits).isSome
        = true ∧
    (drawTextOps pages textEdits).length
      = textEdits.countP
          (fun e => !e.isOriginal && (pageAt pages e.page_number).isSome) ∧
    (drawImageOps fetchImage pages imageEdits).length
      = imageEdits.countP
          (fun i => !i.is_deleted && (pageAt pages i.page_number).isSome) := by
  refine ⟨rfl, ?_, ?_⟩
  · rw [drawTextOps, List.length_filterMap_eq_countP]
    refine List.countP_congr ?_
    intro e _
    by_cases ho : e.isOriginal = true
    · simp [ho]
    · have ho' : e.isOriginal = false := Bool.eq_false_iff.mpr ho
      cases hp : pageAt pages e.page_number with
      | none => simp [ho', hp]
      | some pg => simp [ho', hp]
  · rw [drawImageOps, List.length_filterMap_eq_countP]
    refine List.countP_congr ?_
    intro i hi
    by_cases hd : i.is_deleted = true
    · simp [hd]
    · have hd' : i.is_deleted = false := Bool.eq_false_iff.mpr hd
      cases hp : pageAt pages i.page_number with
      | none => simp [hd', hp]
      | some pg =>
        have hf := hfetch i hi hd' (by simp [hp])
        simp [hd', hp, embedImageOp, hf]

/-- Witness for `export_draws_exactly`: a one-page document with one
drawable user text, one original text, one out-of-range text and one
drawable image. -/
theorem export_draws_exactly_witness :
    (downloadEditedPDF (some samplePages) (fun _ => true)
        [sampleUserText, sampleOrig, outOfRangeText] [sampleImage]).isSome
        = true ∧
    (drawTextOps samplePages [sampleUserText, sampleOrig, outOfRangeText]).length
      = ([sampleUserText, sampleOrig, outOfRangeText] : List TextEdit).countP
          (fun e => !e.isOriginal && (pageAt samplePages e.page_number).isSome) ∧
    (drawImageOps (fun _ => true) samplePages [sampleImage]).length
      = ([sampleImage] : List ImageEdit).countP
          (fun i => !i.is_deleted
            && (pageAt samplePages i.page_number).isSome) :=
  export_draws_exactly samplePages [sampleUserText, sampleOrig, outOfRangeText]
    [sampleImage] (fun _ => true) (by decide)

/-- Claim C7 counterexample: an image whose fetch fails does not abort the
export.  With a valid, non-deleted image entry whose fetch fails on a
one-page document, the export still produces output (a partial document
without that image). -/
theorem export_partial_on_image_failure :
    (downloadEditedPDF (some samplePages) (fun _ => false) [sampleUserText]
        [sampleImage]).isSome = true ∧
    drawImageOps (fun _ => false) samplePages [sampleImage] = [] ∧
    sampleImage.is_deleted = false ∧
    (pageAt samplePages sampleImage.page_number).isSome = true := by
  decide

/-- Claim C7 (amended): an image fetch/decode failure during export is
caught per image: the failed image is skipped (only logged) and the export
continues, producing and offering a document containing every other entry —
exactly the non-deleted, in-range images whose fetch succeeds are drawn.
The export aborts with no output only when loading or assembling the source
document fails, outside the per-image handler. -/
theorem export_image_failure_skipped (pages : List PdfPage)
    (fetchImage : String → Bool) (textEdits : List TextEdit)
    (imageEdits : List ImageEdit) :
    (downloadEditedPDF (some pages) fetchImage textEdits imageEdits).isSome
        = true ∧
    downloadEditedPDF none fetchImage textEdits imageEdits = none ∧
    (drawImageOps fetchImage pages imageEdits).length
      = imageEdits.countP (fun i => !i.is_deleted
          && (pageAt pages i.page_number).isSome
          && fetchImage i.image_url) := by
  refine ⟨rfl, rfl, ?_⟩
  rw [drawImageOps, List.length_filterMap_eq_countP]
  refine List.countP_congr ?_
  intro i _
  by_cases hd : i.is_deleted = true
  · simp [hd]
  · have hd' : i.is_deleted = false := Bool.eq_false_iff.mpr hd
    cases hp : pageAt pages i.page_number with
    | none => simp [hd', hp]
    | some pg =>
      by_cases hf : fetchImage i.image_url = true
      · simp [hd', hp, embedImageOp, hf]
      · have hf' : fetchImage i.image_url = false := Bool.eq_false_iff.mpr hf
        simp [hd', hp, embedImageOp, hf']

/-- Claim C1: promotion is idempotent.  Mutating an `Original` entry's
content promotes it under the fresh durable id `f1`; mutating the resulting
entry again (the store's entry for the fragment now carries id `f1`) updates
it in place: the second call issues a durable content update keyed by `f1`,
not a second insert, the store holds exactly one `UserAuthored` entry for
the fragment (under `f1`, the id allocated by the first promotion), the
second fresh id `f2` never enters the store, and no entry is added or
dropped.  (A second call that still used the stale original id would find
no entry and be a no-op, likewise leaving the single promoted entry.) -/
theorem updateEdit_promotion_idempotent (reportId f1 f2 editId c1 c2 : String)
    (s : List TextEdit) (edit : TextEdit)
    (hfind : s.find? (fun e => e.id == editId) = some edit)
    (horig : edit.isOriginal = true)
    (hfresh1 : ∀ e ∈ s, e.id ≠ f1)
    (hfresh2 : ∀ e ∈ s, e.id ≠ f2)
    (hne : f1 ≠ f2)
    (hcount : s.countP (fun e => e.id == editId) = 1) :
    (updateEdit reportId f2 f1 c2 (updateEdit reportId f1 editId c1 s).1).2
      = [DbOp.update f1 c2] ∧
    (updateEdit reportId f2 f1 c2
        (updateEdit reportId f1 editId c1 s).1).1.countP
        (fun e => !e.isOriginal && e.id == f1) = 1 ∧
    (updateEdit reportId f2 f1 c2
        (updateEdit reportId f1 editId c1 s).1).1.countP
        (fun e => e.id == f2) = 0 ∧
    (updateEdit reportId f2 f1 c2
        (updateEdit reportId f1 editId c1 s).1).1.length = s.length := by
  have heid : edit.id = editId := by simpa using List.find?_some hfind
  have hfind2 := find?_map_promote editId f1 c1 s edit hfind hfresh1
  simp only [updateEdit, hfind, horig, ite_true, hfind2, Bool.false_eq_true,
    ite_false]
  refine ⟨by simp, ?_, ?_, by simp⟩
  · rw [List.map_map, List.countP_map]
    rw [List.countP_congr (q := fun e => e.id == editId) ?_]
    · exact hcount
    · intro x hx
      by_cases hxid : x.id = editId
      · simp [Function.comp, hxid]
      · simp [Function.comp, hxid, hfresh1 x hx]
  · rw [List.map_map, List.countP_map]
    refine List.countP_eq_zero.mpr ?_
    intro x hx
    by_cases hxid : x.id = editId
    · simp [Function.comp, hxid, hne]
    · have hx2 := hfresh2 x hx
      simp only [Function.comp, hxid]
      simp [hxid]
      split <;> simp [hx2]

/-- Witness for `updateEdit_promotion_idempotent`: two successive content
edits of a concrete extracted fragment. -/
theorem updateEdit_promotion_idempotent_witness :
    (updateEdit "rep-1" "uuid-2" "uuid-1" "Total: $100"
        (updateEdit "rep-1" "uuid-1" "original-1-50-100" "Total: $99"
          [sampleOrig, sampleUserText]).1).2
      = [DbOp.update "uuid-1" "Total: $100"] ∧
    (updateEdit "rep-1" "uuid-2" "uuid-1" "Total: $100"
        (updateEdit "rep-1" "uuid-1" "original-1-50-100" "Total: $99"
          [sampleOrig, sampleUserText]).1).1.countP
        (fun e => !e.isOriginal && e.id == "uuid-1") = 1 ∧
    (updateEdit "rep-1" "uuid-2" "uuid-1" "Total: $100"
        (updateEdit "rep-1" "uuid-1" "original-1-50-100" "Total: $99"
          [sampleOrig, sampleUserText]).1).1.countP
        (fun e => e.id == "uuid-2") = 0 ∧
    (updateEdit "rep-1" "uuid-2" "uuid-1" "Total: $100"
        (updateEdit "rep-1" "uuid-1" "original-1-50-100" "Total: $99"
          [sampleOrig, sampleUserText]).1).1.length
      = ([sampleOrig, sampleUserText] : List TextEdit).length :=
  updateEdit_promotion_idempotent "rep-1" "uuid-1" "uuid-2"
    "original-1-50-100" "Total: $99" "Total: $100"
    [sampleOrig, sampleUserText] sampleOrig
    (by decide) (by decide) (by decide) (by decide) (by decide) (by decide)

/-- Claim C2: editing the content of an extracted `Original` fragment issues
exactly one insert call (carrying the new content and the original's
position, font size and color under the fresh durable id), and afterwards
the store holds zero `Original` entries for that fragment (indeed no entry
under the old ephemeral id at all) and exactly one `UserAuthored` entry,
which carries the new content at the original's position, font size and
color; no entry is added or dropped. -/
theorem updateEdit_promotes_original (reportId freshId editId content : String)
    (s : List TextEdit) (edit : TextEdit)
    (hfind : s.find? (fun e => e.id == editId) = some edit)
    (horig : edit.isOriginal = true)
    (hfresh : ∀ e ∈ s, e.id ≠ freshId)
    (hcount : s.countP (fun e => e.id == editId) = 1) :
    (updateEdit reportId freshId editId content s).2
      = [DbOp.insert
          { id := freshId
            report_id := reportId
            page_number := edit.page_number
            edit_type := "text"
            content := content
            position_x := edit.position_x
            position_y := edit.position_y
            font_size := edit.font_size
            color := edit.color }] ∧
    (updateEdit reportId freshId editId content s).1.countP
        (fun e => e.isOriginal && e.id == editId) = 0 ∧
    (updateEdit reportId freshId editId content s).1.countP
        (fun e => e.id == editId) = 0 ∧
    (updateEdit reportId freshId editId content s).1.countP
        (fun e => !e.isOriginal && e.id == freshId) = 1 ∧
    (updateEdit reportId freshId editId content s).1.find?
        (fun e => e.id == freshId)
      = some { edit with
               id := freshId
               content := content
               isOriginal := false } ∧
    (updateEdit reportId freshId editId content s).1.length = s.length := by
  have heid : edit.id = editId := by simpa using List.find?_some hfind
  have hmem : edit ∈ s := List.mem_of_find?_eq_some hfind
  have hne : editId ≠ freshId := fun h => (hfresh edit hmem) (heid.trans h)
  simp only [updateEdit, hfind, horig, ite_true]
  refine ⟨trivial, ?_, ?_, ?_, ?_, by simp⟩
  · rw [List.countP_map]
    refine List.countP_eq_zero.mpr ?_
    intro x hx
    by_cases hxid : x.id = editId
    · simp [Function.comp, hxid]
    · simp [Function.comp, hxid]
  · rw [List.countP_map]
    refine List.countP_eq_zero.mpr ?_
    intro x hx
    by_cases hxid : x.id = editId
    · simp [Function.comp, hxid, Ne.symm hne]
    · simp [Function.comp, hxid]
  · rw [List.countP_map]
    rw [List.countP_congr (q := fun e => e.id == editId) ?_]
    · exact hcount
    · intro x hx
      by_cases hxid : x.id = editId
      · simp [Function.comp, hxid]
      · simp [Function.comp, hxid, hfresh x hx]
  · exact find?_map_promote editId freshId content s edit hfind hfresh

/-- Witness for `updateEdit_promotes_original`: the specification's
"Total: $42" to "Total: $99" scenario on a concrete store. -/
theorem updateEdit_promotes_original_witness :
    (updateEdit "rep-1" "uuid-1" "original-1-50-100" "Total: $99"
        [sampleOrig, sampleUserText]).2
      = [DbOp.insert
          { id := "uuid-1"
            report_id := "rep-1"
            page_number := sampleOrig.page_number
            edit_type := "text"
            content := "Total: $99"
            position_x := sampleOrig.position_x
            position_y := sampleOrig.position_y
            font_size := sampleOrig.font_size
            color := sampleOrig.color }] ∧
    (updateEdit "rep-1" "uuid-1" "original-1-50-100" "Total: $99"
        [sampleOrig, sampleUserText]).1.countP
        (fun e => e.isOriginal && e.id == "original-1-50-100") = 0 ∧
    (updateEdit "rep-1" "uuid-1" "original-1-50-100" "Total: $99"
        [sampleOrig, sampleUserText]).1.countP
        (fun e => e.id == "original-1-50-100") = 0 ∧
    (updateEdit "rep-1" "uuid-1" "original-1-50-100" "Total: $99"
        [sampleOrig, sampleUserText]).1.countP
        (fun e => !e.isOriginal && e.id == "uuid-1") = 1 ∧
    (updateEdit "rep-1" "uuid-1" "original-1-50-100" "Total: $99"
        [sampleOrig, sampleUserText]).1.find?
        (fun e => e.id == "uuid-1")
      = some { sampleOrig with
               id := "uuid-1"
               content := "Total: $99"
               isOriginal := false } ∧
    (updateEdit "rep-1" "uuid-1" "original-1-50-100" "Total: $99"
        [sampleOrig, sampleUserText]).1.length
      = ([sampleOrig, sampleUserText] : List TextEdit).length :=
  updateEdit_promotes_original "rep-1" "uuid-1" "original-1-50-100"
    "Total: $99" [sampleOrig, sampleUserText] sampleOrig
    (by decide) (by decide) (by decide) (by decide)

/-- Claim C9: invoking `updateEdit` or `deleteEdit` with an id that is not
present in the in-memory edit set is a no-op: the in-memory state is
returned unchanged, no persistence call is issued, and no toast or error is
raised. -/
theorem missing_id_noop (reportId freshId editId content : String)
    (textEdits : List TextEdit)
    (h : ∀ e ∈ textEdits, e.id ≠ editId) :
    updateEdit reportId freshId editId content textEdits = (textEdits, []) ∧
    deleteEdit editId textEdits = (textEdits, [], none) := by
  have hfind : textEdits.find? (fun e => e.id == editId) = none := by
    simp only [List.find?_eq_none]
    intro x hx
    simpa using h x hx
  constructor
  · simp [updateEdit, hfind]
  · simp [deleteEdit, hfind]

/-- Witness for `missing_id_noop`: a concrete store holding one entry, probed
with an absent id. -/
theorem missing_id_noop_witness :
    updateEdit "r1" "f1" "nope" "c" [sampleUserText] = ([sampleUserText], []) ∧
    deleteEdit "nope" [sampleUserText] = ([sampleUserText], [], none) :=
  missing_id_noop "r1" "f1" "nope" "c" [sampleUserText] (by decide)

/-- One zoom step keeps the scale within [1/2, 3]. -/
theorem applyZoom_bounds (s : ℚ) (a : ZoomAction) (h1 : 1/2 ≤ s) (h2 : s ≤ 3) :
    1/2 ≤ applyZoom s a ∧ applyZoom s a ≤ 3 := by
  cases a with
  | zoomInStep =>
    simp only [applyZoom, zoomIn]
    constructor
    · exact le_min (by linarith) (by norm_num)
    · exact min_le_right _ _
  | zoomOutStep =>
    simp only [applyZoom, zoomOut]
    constructor
    · exact le_max_right _ _
    · exact max_le (by linarith) (by norm_num)

/-- Claim C10: starting from the initial scale 1.5, no sequence of zoom-in
and zoom-out steps can drive the render scale outside [0.5, 3.0]. -/
theorem scale_always_in_bounds (acts : List ZoomAction) :
    1/2 ≤ runZooms initialScale acts ∧ runZooms initialScale acts ≤ 3 := by
  suffices h : ∀ s : ℚ, 1/2 ≤ s → s ≤ 3 →
      1/2 ≤ runZooms s acts ∧ runZooms s acts ≤ 3 by
    exact h initialScale (by norm_num [initialScale]) (by norm_num [initialScale])
  induction acts with
  | nil =>
    intro s h1 h2
    simpa [runZooms] using And.intro h1 h2
  | cons a t ih =>
    intro s h1 h2
    have hb := applyZoom_bounds s a h1 h2
    simpa [runZooms] using ih (applyZoom s a) hb.1 hb.2

/-- Claim C4 counterexample: the two transforms are not mutually inverse.
At `(x, y) = (50, 700)`, `pageHeight = 800`, `scale = 1` and font size 12
(the specification's own export scenario), the round trip returns
`(50, 688)`, not `(50, 700)` — an offset of the full font size, far beyond
floating-point tolerance. -/
theorem roundtrip_counterexample :
    toPdf (toCanvas 50 700 800 1).1 (toCanvas 50 700 800 1).2 800 12
        = ((50 : ℚ), (688 : ℚ)) ∧
    toPdf (toCanvas 50 700 800 1).1 (toCanvas 50 700 800 1).2 800 12
        ≠ ((50 : ℚ), (700 : ℚ)) := by
  have h1 : toPdf (toCanvas 50 700 800 1).1 (toCanvas 50 700 800 1).2 800 12
      = ((50 : ℚ), (688 : ℚ)) := by
    simp only [toCanvas, toPdf, Prod.mk.injEq]
    norm_num
  refine ⟨h1, ?_⟩
  rw [h1]
  intro hc
  simp only [Prod.mk.injEq] at hc
  norm_num at hc

/-- Claim C4 (amended): the x coordinate round-trips exactly, but the y
coordinate returned by the export-time inverse is offset: applying the
extraction-time PDF-to-canvas transform and then the export-time
canvas-to-PDF transform yields `(x, y - fontSize - pageHeight*(scale - 1))`,
because the inverse subtracts the font-size descent term and uses the
unscaled page height where the forward transform used the scaled one. -/
theorem roundtrip_offset (x y pageHeight scale fontSize : ℚ) :
    toPdf (toCanvas x y pageHeight scale).1 (toCanvas x y pageHeight scale).2
        pageHeight fontSize
      = (x, y - fontSize - pageHeight * (scale - 1)) := by
  simp only [toCanvas, toPdf, Prod.mk.injEq, true_and]
  ring

/-- Claim C8: removing a text entry distinguishes provenance: the target is
always removed from the in-memory set (all other entries are kept), no
durable delete is issued when it is an `Original` entry (the toast says
"Original text hidden"), and a durable delete keyed by its id is issued when
it is a `UserAuthored` entry (the toast says "Edit removed"). -/
theorem deleteEdit_provenance (editId : String) (s : List TextEdit)
    (edit : TextEdit)
    (hfind : s.find? (fun e => e.id == editId) = some edit) :
    (∀ e ∈ (deleteEdit editId s).1, e.id ≠ editId) ∧
    (∀ e ∈ s, e.id ≠ editId → e ∈ (deleteEdit editId s).1) ∧
    ((deleteEdit editId s).2.1
        = if edit.isOriginal then [] else [DbOp.delete editId]) ∧
    ((deleteEdit editId s).2.2
        = some (if edit.isOriginal then "Original text hidden"
                else "Edit removed")) := by
  simp only [deleteEdit, hfind]
  refine ⟨?_, ?_, trivial, trivial⟩
  · intro e he
    have hmem := (List.mem_filter.mp he).2
    simpa using hmem
  · intro e he hne
    exact List.mem_filter.mpr ⟨he, by simpa using hne⟩

/-- Witness for `deleteEdit_provenance`: deleting an `Original` entry from a
concrete store issues no durable delete and reports "hidden". -/
theorem deleteEdit_provenance_witness :
    (deleteEdit "original-1-50-100" [sampleOrig, sampleUserText]).2.1 = [] ∧
    (deleteEdit "original-1-50-100" [sampleOrig, sampleUserText]).2.2
        = some "Original text hidden" := by
  have h := deleteEdit_provenance "original-1-50-100"
    [sampleOrig, sampleUserText] sampleOrig (by decide)
  exact ⟨by simpa [sampleOrig] using h.2.2.1, by simpa [sampleOrig] using h.2.2.2⟩

end ReportEditor
